import Mathlib

/-!
Verification development for the vertexai-image repository, a Node/Express
gateway around the Z.AI image-generation service.  The definitions below are
a shallow embedding of the relevant JavaScript source: the Telegram sidecar
helper findImageUrl from bot.js, and the ZImage session or generation client
from z-image.js / index.js.  Stateful code is embedded by explicit state
passing: a World record supplies the outcome of each external interaction
(the cache file read and the network responses), and every operation returns
its result together with the final session state, the list of network
requests it issued, and the number of cache-file writes it performed.

JavaScript values are embedded as follows.  JSON documents become the Json
inductive family.  A JWT-style token string is embedded by its decode
outcome: decodeJWT in the source splits the string on dots, base64-decodes
the middle segment and JSON-parses it, returning null on any failure; the
Token type therefore carries either malformed (decode returns null, which
also covers a null JSON payload since the callers guard with a falsiness
check on the payload) or the decoded payload.  The exp claim of a payload is
embedded by the two observations the source makes of it: its JS truthiness
and its numeric coercion (none modelling NaN).  An Option String field uses
none for the absent, null or empty-string value, all of which are falsy in
the source.
-/

namespace ZImage

/-- Lowercase the characters of a string, modelling the i flag of the
JavaScript regular expression used by findImageUrl. -/
def lowerChars (s : String) : List Char := s.toList.map Char.toLower

/-- Boolean test that the first list is an initial segment of the second,
modelling the JavaScript String.startsWith check. -/
def isPreList : List Char → List Char → Bool
  | [], _ => true
  | _ :: _, [] => false
  | a :: as, b :: bs => a == b && isPreList as bs

/-- Boolean substring test, modelling the JavaScript String.includes check.
The first argument is the haystack, the second the needle. -/
def containsSub : List Char → List Char → Bool
  | [], needle => needle.isEmpty
  | hay@(_ :: t), needle => isPreList needle hay || containsSub t needle

/-- Split a character list at every occurrence of the given character,
used to read the query string of a URL. -/
def splitOnChar (c : Char) : List Char → List (List Char)
  | [] => [[]]
  | x :: xs =>
    let r := splitOnChar c xs
    if x = c then [] :: r
    else
      match r with
      | [] => [[x]]
      | h :: t => (x :: h) :: t

/-- Line terminators of a JavaScript regular expression, which the dot of
the pattern cannot cross. -/
def lineTerm (c : Char) : Bool :=
  c == '\n' || c == '\r' || c == ' ' || c == ' '

/-- Embedding of the test obj.match of the regular expression
caret https questionmark colon slash slash dot-star backslash-dot
(png or jpg or jpeg or webp) with the i flag, from findImageUrl in
src/bot.js: the string must start, case-insensitively, with an http or
https scheme, and one of the four extensions preceded by a dot must occur
after the scheme before any line terminator. -/
def matchesImageUrl (s : String) : Bool :=
  let cs := lowerChars s
  let rest :=
    if isPreList ("https://".toList) cs then some (cs.drop 8)
    else if isPreList ("http://".toList) cs then some (cs.drop 7)
    else none
  match rest with
  | none => false
  | some r =>
    let line := r.takeWhile (fun c => !lineTerm c)
    containsSub line (".png".toList) || containsSub line (".jpg".toList) ||
    containsSub line (".jpeg".toList) || containsSub line (".webp".toList)

mutual
/-- Embedding of a JSON document, the shape of the upstream responses.
Objects keep their fields in insertion order; the embedding assumes the
usual case of property names that are not array indices, so that the
JavaScript for-in enumeration follows insertion order. -/
inductive Json where
  | null
  | bool (b : Bool)
  | num (n : Int)
  | str (s : String)
  | arr (elems : JsonList)
  | obj (fields : JsonFields)

/-- Elements of a JSON array. -/
inductive JsonList where
  | nil
  | cons (head : Json) (tail : JsonList)

/-- Fields of a JSON object in insertion order. -/
inductive JsonFields where
  | nil
  | cons (key : String) (val : Json) (tail : JsonFields)
end

/-- JavaScript truthiness of an embedded JSON value. -/
def Json.truthy : Json → Bool
  | .null => false
  | .bool b => b
  | .num n => n != 0
  | .str s => !s.isEmpty
  | .arr _ => true
  | .obj _ => true

/-- Whether an embedded JSON value is a string. -/
def Json.isStr : Json → Bool
  | .str _ => true
  | _ => false

/-- Property access on an object: the value of the first field with the
given name, or none when the property is absent (undefined). -/
def JsonFields.get : JsonFields → String → Option Json
  | .nil, _ => none
  | .cons k v t, name => if k = name then some v else t.get name

/-- The url-field test of findImageUrl: obj.url is truthy, is a string, and
starts with http or with a slash.  Returns that string when the test
passes. -/
def urlField (fields : JsonFields) : Option String :=
  match fields.get "url" with
  | some (.str u) =>
    if !u.isEmpty && (isPreList ("http".toList) u.toList ||
        isPreList ("/".toList) u.toList) then some u else none
  | _ => none

mutual
/-- Embedding of findImageUrl from src/bot.js.  A falsy node yields null;
a string node is returned when it matches the image-extension pattern or
contains the fragment /z_image/; an object node yields its url field under
the urlField test, else its image_url field when that value is truthy, else
the first truthy result of a depth-first search of its property values in
order; an array node is searched elementwise; any other node yields null.
The source loop tests the recursive result for truthiness, but every
non-null result of the function is truthy, so Option is faithful. -/
def findImageUrl : Json → Option Json
  | .null => none
  | .bool _ => none
  | .num _ => none
  | .str s =>
    if matchesImageUrl s || containsSub s.toList ("/z_image/".toList) then
      some (.str s)
    else none
  | .arr elems => findInList elems
  | .obj fields =>
    match urlField fields with
    | some u => some (.str u)
    | none =>
      match fields.get "image_url" with
      | some v => if v.truthy then some v else findInFields fields
      | none => findInFields fields

/-- Depth-first search of the field values of an object, first hit wins. -/
def findInFields : JsonFields → Option Json
  | .nil => none
  | .cons _ v t =>
    match findImageUrl v with
    | some r => some r
    | none => findInFields t

/-- Depth-first search of the elements of an array, first hit wins. -/
def findInList : JsonList → Option Json
  | .nil => none
  | .cons h t =>
    match findImageUrl h with
    | some r => some r
    | none => findInList t
end

/-- Embedding of the exp claim of a decoded token payload by the two
observations the source makes of it: absent models a payload without the
property (undefined: falsy, numeric coercion NaN); falsy models a present
falsy JSON value (null, false, 0 or the empty string, all of which coerce
to the number 0); truthyNum v models a present truthy value whose numeric
coercion is v; truthyNaN models a present truthy value whose numeric
coercion is NaN, such as a non-numeric string or an object. -/
inductive ExpField where
  | absent
  | falsy
  | truthyNum (v : Int)
  | truthyNaN
deriving DecidableEq

/-- JavaScript truthiness of the exp claim. -/
def ExpField.truthy : ExpField → Bool
  | .absent => false
  | .falsy => false
  | .truthyNum _ => true
  | .truthyNaN => true

/-- Numeric coercion of the exp claim; none models NaN. -/
def ExpField.toNum : ExpField → Option Int
  | .absent => none
  | .falsy => some 0
  | .truthyNum v => some v
  | .truthyNaN => none

/-- Decoded JWT payload: the claims the source reads from it. -/
structure Payload where
  exp : ExpField
  sub : Option String
  clientId : Option String
deriving DecidableEq

/-- A session-token string, embedded by its decode outcome: malformed covers
every string that decodeJWT maps to null (wrong segment count, base64 or
JSON failure, or a decoded payload that is itself falsy), wellFormed carries
the decoded payload. -/
inductive Token where
  | malformed
  | wellFormed (payload : Payload)
deriving DecidableEq

/-- Embedding of ZImage.decodeJWT from z-image.js. -/
def decodeJWT : Token → Option Payload
  | .malformed => none
  | .wellFormed p => some p

/-- The mutable auth state of the ZImage class: sessionToken and chatToken.
none models a null, undefined or empty-string value, all falsy. -/
structure SessionState where
  sessionToken : Option Token
  chatToken : Option String
deriving DecidableEq

/-- Milliseconds in 24 hours, the early-refresh window. -/
def msPerDay : Int := 86400000

/-- Embedding of ZImage.sessionNeedsRefresh: true when the token is absent,
undecodable or its exp claim is falsy; otherwise the comparison
exp times 1000 minus now less than 24 hours, which is false when the
numeric coercion of exp is NaN. -/
def sessionNeedsRefresh (st : SessionState) (now : Int) : Bool :=
  match st.sessionToken with
  | none => true
  | some tok =>
    match decodeJWT tok with
    | none => true
    | some p =>
      if !p.exp.truthy then true
      else
        match p.exp.toNum with
        | none => false
        | some v => decide (v * 1000 - now < msPerDay)

/-- Embedding of ZImage.isSessionValid: the token is present, decodable,
its exp claim truthy, and exp times 1000 exceeds now; a NaN coercion makes
the comparison false. -/
def isSessionValid (st : SessionState) (now : Int) : Bool :=
  match st.sessionToken with
  | none => false
  | some tok =>
    match decodeJWT tok with
    | none => false
    | some p =>
      if !p.exp.truthy then false
      else
        match p.exp.toNum with
        | none => false
        | some v => decide (v * 1000 > now)

/-- Extreme timestamp representable by a JavaScript Date, in milliseconds:
toISOString on a Date outside this range, or on a NaN Date, throws a
RangeError. -/
def dateRangeMs : Int := 8640000000000000

/-- Exact integer model of the JavaScript Math.round of a quotient e / d for
d positive: floor of the quotient plus one half. -/
def jsRoundDiv (e d : Int) : Int := Int.fdiv (2 * e + d) (2 * d)

/-- The value getSessionInfo returns: either the invalid record with its
error message, or the full snapshot. -/
inductive SessionInfo where
  | invalid (error : String)
  | snapshot (valid : Bool) (userId : Option String) (clientId : Option String)
      (expiresAtMs : Int) (expiresInDays : Int) (expiresInHours : Int)
      (needsRefresh : Bool)
deriving DecidableEq

/-- Outcome of a JavaScript call that may throw. -/
inductive JsOutcome (α : Type) where
  | ok (value : α)
  | thrown (msg : String)
deriving DecidableEq

/-- Embedding of ZImage.getSessionInfo.  The source builds
new Date(payload.exp * 1000) and calls toISOString on it while assembling
the snapshot; when the numeric coercion of exp is NaN, or the timestamp is
outside the Date range, that call throws a RangeError, embedded here as the
thrown outcome. -/
def getSessionInfo (st : SessionState) (now : Int) : JsOutcome SessionInfo :=
  match st.sessionToken with
  | none => .ok (.invalid "No session token provided")
  | some tok =>
    match decodeJWT tok with
    | none => .ok (.invalid "Invalid JWT format")
    | some p =>
      match p.exp.toNum with
      | none => .thrown "RangeError: Invalid time value"
      | some v =>
        let expMs := v * 1000
        if expMs < -dateRangeMs || dateRangeMs < expMs then
          .thrown "RangeError: Invalid time value"
        else
          let expiresIn := expMs - now
          .ok (.snapshot (decide (expiresIn > 0)) p.sub p.clientId expMs
            (jsRoundDiv expiresIn msPerDay) (jsRoundDiv expiresIn 3600000)
            (sessionNeedsRefresh st now))

/-- A network request issued by the client, as recorded in a trace. -/
inductive NetRequest where
  | oauthAuthorize (chatToken : String)
  | tokenExchange (code : Option String)
  | imageGenerate (prompt ratio resolution : String) (rmWatermark : Bool)
deriving DecidableEq

/-- Whether a request is the upstream image-generation POST. -/
def isGenerateReq : NetRequest → Bool
  | .imageGenerate _ _ _ _ => true
  | _ => false

/-- Body of the step-1 authorize response that the source reads. -/
structure Step1Response where
  redirectUrl : Option String
deriving DecidableEq

/-- Body of the step-2 token-exchange response that the source reads.  The
token field is none when absent or falsy (the source rejects a falsy
token). -/
structure Step2Response where
  token : Option Token
deriving DecidableEq

/-- Parsed content of the session cache file; none for each field models an
absent or falsy value. -/
structure CacheData where
  sessionToken : Option Token
  chatToken : Option String

/-- The external world an execution runs against: the cache-file content
(none when the read or parse fails), the response to the step-1 authorize
POST, the response to the step-2 token-exchange POST as a function of the
code sent, and the response to the image-generation POST.  An error value
models a transport failure thrown by axios. -/
structure World where
  cacheFile : Option CacheData
  step1 : Except Unit Step1Response
  step2 : Option String → Except Unit Step2Response
  genOk : Bool
  genData : Json

/-- Validity test of new URL(u) restricted to the lowercase http and https
schemes the refresher meets: the scheme is present and the authority is
nonempty.  An invalid URL makes the source throw inside its try block. -/
def validHttpUrl (u : String) : Bool :=
  let cs := u.toList
  let rest :=
    if isPreList ("https://".toList) cs then some (cs.drop 8)
    else if isPreList ("http://".toList) cs then some (cs.drop 7) else none
  match rest with
  | none => false
  | some r =>
    match r with
    | [] => false
    | c :: _ => !(c = '/' || c = '?' || c = '#')

/-- The query string of a URL: everything after the first question mark and
before the first hash sign. -/
def queryOf (u : String) : List Char :=
  ((u.toList.takeWhile (fun c => c ≠ '#')).dropWhile (fun c => c ≠ '?')).drop 1

/-- Model of new URL(u).searchParams.get(name) for the plain query strings
the refresher meets (no percent escapes): the value of the first parameter
with the given name, or none when no such parameter exists. -/
def getQueryParam (u : String) (name : String) : Option String :=
  let pairs := splitOnChar '&' (queryOf u)
  (pairs.filterMap fun p =>
    if p.isEmpty then none
    else
      let k := p.takeWhile (fun c => c ≠ '=')
      let v := (p.dropWhile (fun c => c ≠ '=')).drop 1
      if String.mk k = name then some (String.mk v) else none).head?

/-- Result of a refreshSession run: the returned boolean, the session state
after the run, the network requests issued, and the number of cache-file
writes performed. -/
structure RefreshOut where
  ok : Bool
  state : SessionState
  requests : List NetRequest
  cacheWrites : Nat
deriving DecidableEq

/-- Embedding of ZImage.refreshSession from z-image.js.  Without a truthy
chat token it returns false at once.  Otherwise it POSTs the authorize
request; a transport failure, a falsy redirect URL, or an unparseable
redirect URL (the thrown TypeError is caught) each yield false.  The code
query parameter is read from the redirect URL but never tested: the step-2
POST is issued even when the parameter is missing, carrying a null code.
A transport failure or a falsy token in the step-2 response yields false;
otherwise the session token is replaced, the cache is saved once, and the
run returns true. -/
def refreshSession (st : SessionState) (w : World) : RefreshOut :=
  match st.chatToken with
  | none => ⟨false, st, [], 0⟩
  | some ct =>
    if ct.isEmpty then ⟨false, st, [], 0⟩
    else
      let req1 := NetRequest.oauthAuthorize ct
      match w.step1 with
      | .error _ => ⟨false, st, [req1], 0⟩
      | .ok r1 =>
        match r1.redirectUrl with
        | none => ⟨false, st, [req1], 0⟩
        | some ru =>
          if ru.isEmpty then ⟨false, st, [req1], 0⟩
          else if !validHttpUrl ru then ⟨false, st, [req1], 0⟩
          else
            let authCode := getQueryParam ru "code"
            let req2 := NetRequest.tokenExchange authCode
            match w.step2 authCode with
            | .error _ => ⟨false, st, [req1, req2], 0⟩
            | .ok r2 =>
              match r2.token with
              | none => ⟨false, st, [req1, req2], 0⟩
              | some newTok =>
                ⟨true, { st with sessionToken := some newTok }, [req1, req2], 1⟩

/-- Embedding of ZImage.loadSessionFromCache: a failed read or parse leaves
the state unchanged; otherwise each truthy cached field overwrites the
corresponding state field. -/
def loadSessionFromCache (st : SessionState) (w : World) : SessionState :=
  match w.cacheFile with
  | none => st
  | some c =>
    let st1 :=
      match c.sessionToken with
      | some t => { st with sessionToken := some t }
      | none => st
    match c.chatToken with
    | some ct => if ct.isEmpty then st1 else { st1 with chatToken := some ct }
    | none => st1

/-- Result of an ensureSession run; ok is false when the source throws its
Session expired error. -/
structure EnsureOut where
  ok : Bool
  state : SessionState
  requests : List NetRequest
  cacheWrites : Nat

/-- Embedding of ZImage.ensureSession: load the cache when no token is
present, then, when the token is invalid or stale, attempt a refresh; a
failed refresh with a still-invalid token throws Session expired. -/
def ensureSession (st : SessionState) (w : World) (now : Int) : EnsureOut :=
  let st1 := if st.sessionToken.isSome then st else loadSessionFromCache st w
  if !isSessionValid st1 now || sessionNeedsRefresh st1 now then
    let r := refreshSession st1 w
    if !r.ok && !isSessionValid r.state now then
      ⟨false, r.state, r.requests, r.cacheWrites⟩
    else
      ⟨true, r.state, r.requests, r.cacheWrites⟩
  else
    ⟨true, st1, [], 0⟩

/-- The errors ZImage.generate can throw. -/
inductive ZError where
  | sessionExpired
  | invalidRatio (given : String)
  | invalidResolution (given : String)
  | upstream
deriving DecidableEq

/-- The options record passed to generate; none models an absent field. -/
structure GenOptions where
  ratio : Option String
  resolution : Option String
  noWatermark : Option Bool
deriving DecidableEq

/-- Result of a generate run. -/
structure GenOut where
  result : Except ZError Json
  state : SessionState
  requests : List NetRequest
  cacheWrites : Nat

/-- JavaScript or-default on an optional string: the default replaces an
absent or empty (falsy) value. -/
def jsOr (o : Option String) (d : String) : String :=
  match o with
  | some s => if s.isEmpty then d else s
  | none => d

/-- The supported aspect ratios, ZImage.ratios. -/
def ratios : List String := ["1:1", "3:4", "4:3", "16:9", "9:16", "21:9", "9:21"]

/-- The supported resolutions, ZImage.resolutions. -/
def resolutions : List String := ["1K", "2K"]

/-- Embedding of ZImage.generate from z-image.js: first ensureSession runs
(possibly issuing refresh network requests or throwing Session expired),
then the ratio and resolution options are defaulted and validated, and only
then is the image-generation POST issued. -/
def generate (st : SessionState) (w : World) (now : Int) (prompt : String)
    (options : GenOptions) : GenOut :=
  let e := ensureSession st w now
  if !e.ok then ⟨.error .sessionExpired, e.state, e.requests, e.cacheWrites⟩
  else
    let ratio := jsOr options.ratio "1:1"
    let resolution := jsOr options.resolution "1K"
    let noWatermark := options.noWatermark != some false
    if !(ratios.contains ratio) then
      ⟨.error (.invalidRatio ratio), e.state, e.requests, e.cacheWrites⟩
    else if !(resolutions.contains resolution) then
      ⟨.error (.invalidResolution resolution), e.state, e.requests, e.cacheWrites⟩
    else
      let req := NetRequest.imageGenerate prompt ratio resolution noWatermark
      if w.genOk then ⟨.ok w.genData, e.state, e.requests ++ [req], e.cacheWrites⟩
      else ⟨.error .upstream, e.state, e.requests ++ [req], e.cacheWrites⟩

/-- Lookup among the own entries of a JavaScript object literal used as a
table. -/
def ownLookup {α : Type} (key : String) : List (String × α) → Option α
  | [] => none
  | (k, v) :: rest => if k = key then some v else ownLookup key rest

/-- The property names a plain object inherits from Object.prototype in
Node.  Reading any of them on an object literal yields a truthy non-string
value: a built-in method for all of them except the accessor at the last
underscore-proto name, which yields the prototype object itself. -/
def protoKeys : List String :=
  ["constructor", "__defineGetter__", "__defineSetter__", "hasOwnProperty",
   "__lookupGetter__", "__lookupSetter__", "isPrototypeOf",
   "propertyIsEnumerable", "toString", "valueOf", "__proto__",
   "toLocaleString"]

/-- Outcome of the property access obj[key] on an object literal used as a
lookup table: an own entry, a truthy non-string value inherited from
Object.prototype, or undefined. -/
inductive PropLookup (α : Type) where
  | own (v : α)
  | inherited
  | absent
deriving DecidableEq

/-- Embedding of the property access obj[key] on a table object literal in
the source: an own entry wins; otherwise the Object.prototype chain is
consulted, yielding a truthy non-string value for its property names; any
other key yields undefined. -/
def tableLookup {α : Type} (key : String) (entries : List (String × α)) :
    PropLookup α :=
  match ownLookup key entries with
  | some v => .own v
  | none => if protoKeys.contains key then .inherited else .absent

/-- Value held by a handler variable fed from such a table access: a
string, the undefined value, or a truthy non-string value inherited from
Object.prototype. -/
inductive JsVal where
  | str (s : String)
  | undefined
  | protoVal
deriving DecidableEq

/-- An entry of the modelMapping table in index.js. -/
structure ModelConfig where
  resolution : String
  quality : String
deriving DecidableEq

/-- The modelMapping table from index.js. -/
def modelMapping : List (String × ModelConfig) :=
  [("z-image-pro", ⟨"2K", "hd"⟩), ("z-image", ⟨"1K", "standard"⟩),
   ("dall-e-3", ⟨"2K", "hd"⟩), ("dall-e-2", ⟨"1K", "standard"⟩)]

/-- The sizeToRatio table from index.js. -/
def sizeToRatio : List (String × String) :=
  [("256x256", "1:1"), ("512x512", "1:1"), ("1024x1024", "1:1"),
   ("1024x1792", "9:16"), ("1792x1024", "16:9"), ("1280x720", "16:9"),
   ("720x1280", "9:16"), ("1920x1080", "16:9"), ("1080x1920", "9:16")]

/-- The qualityToResolution table from index.js. -/
def qualityToResolution : List (String × String) :=
  [("standard", "1K"), ("hd", "2K"), ("low", "1K"), ("high", "2K")]

/-- The ratio chosen by the OpenAI-compatible handler:
sizeToRatio[size] or-default 1:1.  An own entry is a truthy string; a size
on the Object.prototype chain yields the truthy inherited value, so the
default does not apply to it; an absent size yields the default. -/
def ratioOfSize (size : String) : JsVal :=
  match tableLookup size sizeToRatio with
  | .own r => .str r
  | .inherited => .protoVal
  | .absent => .str "1:1"

/-- The resolution chosen by the OpenAI-compatible handler in index.js.  A
model that is an own entry of modelMapping dictates its resolution; a model
name on the Object.prototype chain is a truthy lookup, so the mapped branch
is taken, and reading the resolution property off the inherited value
yields undefined; otherwise 2K when the model name contains hd or the
quality is hd or high; otherwise the qualityToResolution access: an own
entry, or the truthy inherited value for a quality name on the prototype
chain, or the initial 1K. -/
def chooseResolution (model quality : String) : JsVal :=
  match tableLookup model modelMapping with
  | .own m => .str m.resolution
  | .inherited => .undefined
  | .absent =>
    if containsSub model.toList ("hd".toList) || quality = "hd" ||
        quality = "high" then .str "2K"
    else
      match tableLookup quality qualityToResolution with
      | .own r => .str r
      | .inherited => .protoVal
      | .absent => .str "1K"

/-- A generated artifact on disk: its filename and creation time in epoch
milliseconds. -/
structure FileEntry where
  name : String
  ctime : Nat
deriving DecidableEq

/-- Modelled from the spec: the artifact retention policy.  The cleanup code
of the generation gateway is not under src (only the spec and the README
describe it); the spec states that a directory retains up to the 10
most-recently-created files and that older files are deleted eagerly after
each new save.  newerCount counts the files of a directory strictly newer
than a given file. -/
def newerCount (fs : List FileEntry) (f : FileEntry) : Nat :=
  (fs.filter fun g => decide (f.ctime < g.ctime)).length

/-- Modelled from the spec: after a save, a file survives exactly when
fewer than keep files of the directory are strictly newer than it. -/
def pruneRetention (keep : Nat) (fs : List FileEntry) : List FileEntry :=
  fs.filter fun f => decide (newerCount fs f < keep)

/-- Modelled from the spec: saving a new artifact appends it to the
directory and prunes to the 10 most-recently-created files. -/
def saveArtifact (fs : List FileEntry) (f : FileEntry) : List FileEntry :=
  pruneRetention 10 (fs ++ [f])

/-- A world with no usable cache and failing network, used by closed
instances of the theorems below. -/
def worldNoNet : World :=
  ⟨none, .error (), fun _ => .error (), false, .null⟩

/-- A well-formed token whose payload has no exp property. -/
def c2Token : Token := .wellFormed ⟨.absent, some "u", some "cl"⟩

/-- Session state holding c2Token. -/
def c2State : SessionState := ⟨some c2Token, none⟩

/-- A well-formed token whose exp claim is a truthy non-numeric value. -/
def c5Token : Token := .wellFormed ⟨.truthyNaN, none, none⟩

/-- Session state holding c5Token. -/
def c5State : SessionState := ⟨some c5Token, none⟩

/-- Session state with no session token and a usable chat token. -/
def c1State : SessionState := ⟨none, some "ct"⟩

/-- Session state with no session token and a usable chat token. -/
def c3State : SessionState := ⟨none, some "ct"⟩

/-- A world whose authorize response carries a redirect URL without a code
parameter and whose token-exchange response carries a token. -/
def c3World : World :=
  ⟨none, .ok ⟨some "https://image.z.ai/?state=abc"⟩,
   fun _ => .ok ⟨some .malformed⟩, false, .null⟩

/-- A world whose authorize response carries no redirect URL. -/
def c3WitWorld : World := ⟨none, .ok ⟨none⟩, fun _ => .error (), false, .null⟩

/-- A token valid far into the future. -/
def freshTok : Token := .wellFormed ⟨.truthyNum 99999999999, none, none⟩

/-- A directory of ten artifacts with creation times 1 to 10. -/
def tenFiles : List FileEntry :=
  [⟨"a", 1⟩, ⟨"b", 2⟩, ⟨"c", 3⟩, ⟨"d", 4⟩, ⟨"e", 5⟩,
   ⟨"f", 6⟩, ⟨"g", 7⟩, ⟨"h", 8⟩, ⟨"i", 9⟩, ⟨"j", 10⟩]

/-! Helper lemmas shared by the claim theorems. -/

/-- A list holding two distinct members has length at least two. -/
theorem two_mem_le_length {α : Type} :
    ∀ (l : List α) (a b : α), a ∈ l → b ∈ l → a ≠ b → 2 ≤ l.length
  | [], a, _, ha, _, _ => absurd ha (List.not_mem_nil a)
  | x :: xs, a, b, ha, hb, hab => by
    rcases List.mem_cons.mp ha with rfl | ha'
    · rcases List.mem_cons.mp hb with rfl | hb'
      · exact absurd rfl hab
      · have h1 := List.length_pos_of_mem hb'
        simp only [List.length_cons]; omega
    · rcases List.mem_cons.mp hb with rfl | hb'
      · have h1 := List.length_pos_of_mem ha'
        simp only [List.length_cons]; omega
      · have h2 := two_mem_le_length xs a b ha' hb' hab
        simp only [List.length_cons]; omega

/-- The lengths of the filter of a predicate and of its negation add up to
the length of the list. -/
theorem filter_split {α : Type} (l : List α) (p q : α → Bool)
    (hpq : ∀ a, q a = !(p a)) :
    (l.filter p).length + (l.filter q).length = l.length := by
  induction l with
  | nil => rfl
  | cons x xs ih => cases hp : p x <;> simp [List.filter_cons, hp, hpq] <;> omega

/-- A valid session has a present token. -/
theorem valid_isSome (st : SessionState) (now : Int)
    (h : isSessionValid st now = true) : st.sessionToken.isSome = true := by
  cases hst : st.sessionToken with
  | none => rw [isSessionValid, hst] at h; exact absurd h (by simp)
  | some tok => rfl

/-- Shape lemma for refreshSession: every run either fails having issued
zero, one or two requests and leaves the state unchanged, or succeeds
having issued both requests, written the cache once, and replaced the
session token. -/
theorem refresh_shape (st : SessionState) (w : World) :
    refreshSession st w = ⟨false, st, [], 0⟩ ∨
    (∃ ct, st.chatToken = some ct ∧
      refreshSession st w = ⟨false, st, [.oauthAuthorize ct], 0⟩) ∨
    (∃ ct code, st.chatToken = some ct ∧
      refreshSession st w =
        ⟨false, st, [.oauthAuthorize ct, .tokenExchange code], 0⟩) ∨
    (∃ ct code t, st.chatToken = some ct ∧
      refreshSession st w =
        ⟨true, { st with sessionToken := some t },
         [.oauthAuthorize ct, .tokenExchange code], 1⟩) := by
  cases hct : st.chatToken with
  | none => exact Or.inl (by simp [refreshSession, hct])
  | some ct =>
    cases h0 : ct.isEmpty with
    | true => exact Or.inl (by simp [refreshSession, hct, h0])
    | false =>
      cases h1 : w.step1 with
      | error e =>
        exact Or.inr (Or.inl ⟨ct, rfl, by simp [refreshSession, hct, h0, h1]⟩)
      | ok r1 =>
        cases h2 : r1.redirectUrl with
        | none =>
          exact Or.inr (Or.inl ⟨ct, rfl, by simp [refreshSession, hct, h0, h1, h2]⟩)
        | some ru =>
          cases h3 : ru.isEmpty with
          | true =>
            exact Or.inr (Or.inl ⟨ct, rfl,
              by simp [refreshSession, hct, h0, h1, h2, h3]⟩)
          | false =>
            cases h4 : validHttpUrl ru with
            | false =>
              exact Or.inr (Or.inl ⟨ct, rfl,
                by simp [refreshSession, hct, h0, h1, h2, h3, h4]⟩)
            | true =>
              cases h5 : w.step2 (getQueryParam ru "code") with
              | error e =>
                exact Or.inr (Or.inr (Or.inl ⟨ct, getQueryParam ru "code", rfl,
                  by simp [refreshSession, hct, h0, h1, h2, h3, h4, h5]⟩))
              | ok r2 =>
                cases h6 : r2.token with
                | none =>
                  exact Or.inr (Or.inr (Or.inl ⟨ct, getQueryParam ru "code", rfl,
                    by simp [refreshSession, hct, h0, h1, h2, h3, h4, h5, h6]⟩))
                | some t =>
                  exact Or.inr (Or.inr (Or.inr ⟨ct, getQueryParam ru "code", t, rfl,
                    by simp [refreshSession, hct, h0, h1, h2, h3, h4, h5, h6]⟩))

/-- No refreshSession run issues an image-generation request. -/
theorem refresh_no_gen (st : SessionState) (w : World) :
    ((refreshSession st w).requests.all fun r => !isGenerateReq r) = true := by
  rcases refresh_shape st w with h | ⟨ct, _, h⟩ | ⟨ct, code, _, h⟩ | ⟨ct, code, t, _, h⟩ <;>
    rw [h] <;> rfl

/-- The requests of an ensureSession run are those of some refreshSession
run, or none at all. -/
theorem ensure_requests_eq (st : SessionState) (w : World) (now : Int) :
    (ensureSession st w now).requests = [] ∨
    ∃ st1, (ensureSession st w now).requests = (refreshSession st1 w).requests := by
  unfold ensureSession
  dsimp only
  generalize (if st.sessionToken.isSome = true then st else loadSessionFromCache st w) = st1
  split
  · split
    · exact Or.inr ⟨st1, rfl⟩
    · exact Or.inr ⟨st1, rfl⟩
  · exact Or.inl rfl

/-- No ensureSession run issues an image-generation request. -/
theorem ensure_no_gen (st : SessionState) (w : World) (now : Int) :
    ((ensureSession st w now).requests.all fun r => !isGenerateReq r) = true := by
  rcases ensure_requests_eq st w now with h | ⟨st1, h⟩
  · rw [h]; rfl
  · rw [h]; exact refresh_no_gen st1 w

/-- A valid fresh session makes ensureSession a no-op. -/
theorem ensure_fresh (st : SessionState) (w : World) (now : Int)
    (hv : isSessionValid st now = true)
    (hr : sessionNeedsRefresh st now = false) :
    ensureSession st w now = ⟨true, st, [], 0⟩ := by
  have hs := valid_isSome st now hv
  unfold ensureSession
  simp [hs, hv, hr]

/-- C2, code evaluated at the failing input: for a present, decodable
session token whose payload has no exp property, getSessionInfo throws a
RangeError (toISOString on an invalid Date) instead of returning a result,
contradicting the claim that it never throws. -/
theorem c2_getSessionInfo_throws_on_missing_exp :
    decodeJWT c2Token = some ⟨.absent, some "u", some "cl"⟩ ∧
    getSessionInfo c2State 1700000000000 = .thrown "RangeError: Invalid time value" :=
  ⟨rfl, rfl⟩

/-- C5, counterexample: a present, decodable token whose exp claim is a
truthy non-numeric value makes sessionNeedsRefresh return false, although
no numeric exp satisfies the claimed condition exp times 1000 minus now at
least 24 hours (the numeric coercion of exp is NaN). -/
theorem c5_nonnumeric_exp_cex :
    sessionNeedsRefresh c5State 0 = false ∧
    (decodeJWT c5Token).isSome = true ∧
    ((decodeJWT c5Token).bind fun p => p.exp.toNum) = none :=
  ⟨rfl, rfl, rfl⟩

/-- C5, amended: sessionNeedsRefresh returns true exactly when the token is
absent, or undecodable, or its exp claim is falsy (absent, null, false,
zero or empty), or the numeric coercion of exp exists and
exp times 1000 minus now is below 24 hours; in particular a decodable
payload whose exp is truthy but non-numeric yields false. -/
theorem c5_needsRefresh_amended (st : SessionState) (now : Int) :
    sessionNeedsRefresh st now = true ↔
      st.sessionToken = none ∨
      ∃ tok, st.sessionToken = some tok ∧
        (decodeJWT tok = none ∨
         ∃ p, decodeJWT tok = some p ∧
           (p.exp.truthy = false ∨
            ∃ v, p.exp.toNum = some v ∧ v * 1000 - now < msPerDay)) := by
  cases hst : st.sessionToken with
  | none => simp [sessionNeedsRefresh, hst]
  | some tok =>
    cases tok with
    | malformed => simp [sessionNeedsRefresh, hst, decodeJWT]
    | wellFormed p =>
      rcases p with ⟨e, psub, pcid⟩
      cases e <;>
        simp [sessionNeedsRefresh, hst, decodeJWT, ExpField.truthy, ExpField.toNum]

/-- C5, witness: the amended characterisation applied to the empty session
state. -/
theorem c5_needsRefresh_amended_witness :
    sessionNeedsRefresh ⟨none, none⟩ 5 = true :=
  (c5_needsRefresh_amended ⟨none, none⟩ 5).mpr (Or.inl rfl)

/-- Outside the own entries, the property access reduces to the
Object.prototype test. -/
theorem tableLookup_not_own {α : Type} (key : String)
    (entries : List (String × α)) (h : ownLookup key entries = none) :
    tableLookup key entries =
      if protoKeys.contains key then .inherited else .absent := by
  unfold tableLookup
  rw [h]

/-- The qualityToResolution fallback for a quality that is neither hd nor
high: an own entry yields 1K, a prototype-chain name yields the inherited
value, anything else defaults to 1K. -/
theorem quality_fallback (quality : String)
    (hq1 : quality ≠ "hd") (hq2 : quality ≠ "high") :
    (match tableLookup quality qualityToResolution with
      | PropLookup.own r => JsVal.str r
      | PropLookup.inherited => JsVal.protoVal
      | PropLookup.absent => JsVal.str "1K") =
      if protoKeys.contains quality then JsVal.protoVal else JsVal.str "1K" := by
  by_cases hs : quality = "standard"
  · subst hs; rfl
  · by_cases hl : quality = "low"
    · subst hl; rfl
    · have hown : ownLookup quality qualityToResolution = none := by
        simp only [qualityToResolution, ownLookup]
        split_ifs with e1 e2 e3 e4
        · exact absurd e1.symm hs
        · exact absurd e2.symm hq1
        · exact absurd e3.symm hl
        · exact absurd e4.symm hq2
        · rfl
      rw [tableLookup_not_own quality qualityToResolution hown]
      cases hpq : protoKeys.contains quality with
      | true => rfl
      | false => rfl

/-- C7, counterexample: quality does not determine the resolution of an
unmapped model alone.  The model foo-hd is no own entry of the table and is
off the prototype chain, yet with quality standard it yields 2K, because
the handler also tests whether the model name contains hd; and the model
name constructor, also not in the table, is a truthy prototype-chain
lookup, so the mapped branch is taken and the resolution is undefined even
with quality hd. -/
theorem c7_model_hd_cex :
    (ownLookup "foo-hd" modelMapping = none ∧
     protoKeys.contains "foo-hd" = false ∧
     ("standard" == "hd") = false ∧
     ("standard" == "high") = false ∧
     chooseResolution "foo-hd" "standard" = .str "2K") ∧
    (ownLookup "constructor" modelMapping = none ∧
     chooseResolution "constructor" "hd" = .undefined) :=
  ⟨⟨rfl, rfl, rfl, rfl, rfl⟩, rfl, rfl⟩

/-- C7, amended: for a model name that is not an own entry of the mapping
table, the resolution is undefined when the model name is an inherited
Object.prototype property (the truthy lookup takes the mapped branch whose
resolution read yields undefined); otherwise 2K when the model name
contains hd or the quality is hd or high; otherwise the inherited value
when the quality is an inherited property name; otherwise 1K. -/
theorem c7_resolution_fallback_amended (model quality : String)
    (h : ownLookup model modelMapping = none) :
    chooseResolution model quality =
      if protoKeys.contains model then .undefined
      else if containsSub model.toList ("hd".toList) || quality = "hd" ||
          quality = "high" then .str "2K"
      else if protoKeys.contains quality then .protoVal
      else .str "1K" := by
  unfold chooseResolution
  rw [tableLookup_not_own model modelMapping h]
  cases hpm : protoKeys.contains model with
  | true => rfl
  | false =>
    simp only [Bool.false_eq_true, if_false]
    cases hc : (containsSub model.toList ("hd".toList) || decide (quality = "hd") ||
        decide (quality = "high")) with
    | true => simp [hc]
    | false =>
      have hc' := hc
      simp only [Bool.or_eq_false_iff, decide_eq_false_iff_not] at hc'
      obtain ⟨⟨-, hq1⟩, hq2⟩ := hc'
      simp only [hc, Bool.false_eq_true, if_false]
      exact quality_fallback quality hq1 hq2

/-- C7, witness: the amended fallback applied to an unmapped model whose
name does not contain hd, with a quality off the prototype chain. -/
theorem c7_resolution_fallback_amended_witness :
    chooseResolution "plain-model" "low" = .str "1K" := by
  rw [c7_resolution_fallback_amended "plain-model" "low" rfl]
  rfl

/-- C8: without a truthy chat token, refreshSession returns false at once,
issues no network request, performs no cache write, and leaves the state
unchanged. -/
theorem c8_refresh_no_chat_token (st : SessionState) (w : World)
    (h : st.chatToken = none ∨ st.chatToken = some "") :
    refreshSession st w = ⟨false, st, [], 0⟩ := by
  rcases h with h | h <;>
    simp [refreshSession, h, show "".isEmpty = true from rfl]

/-- C8, witness: the empty session state against the failing world. -/
theorem c8_refresh_no_chat_token_witness :
    refreshSession ⟨none, none⟩ worldNoNet = ⟨false, ⟨none, none⟩, [], 0⟩ :=
  c8_refresh_no_chat_token ⟨none, none⟩ worldNoNet (Or.inl rfl)

/-- C9, counterexample: a size that is not in the table does not always map
to the default 1:1: the size toString is no own entry, but it is a truthy
Object.prototype lookup, so the handler uses that inherited non-string
value instead of the default, and the request later fails ratio validation
instead of generating at 1:1. -/
theorem c9_proto_size_cex :
    ownLookup "toString" sizeToRatio = none ∧
    ratioOfSize "toString" = .protoVal ∧
    (JsVal.protoVal == JsVal.str "1:1") = false :=
  ⟨rfl, rfl, rfl⟩

/-- C9, amended: the size parameter maps to a ratio by the fixed nine-entry
table; a size that is neither an own table entry nor an inherited
Object.prototype property name maps to the default 1:1; a size that is an
inherited property name yields the truthy inherited value instead of the
default. -/
theorem c9_sizeToRatio_mapping :
    (ratioOfSize "256x256" = .str "1:1" ∧ ratioOfSize "512x512" = .str "1:1" ∧
     ratioOfSize "1024x1024" = .str "1:1") ∧
    (ratioOfSize "1024x1792" = .str "9:16" ∧ ratioOfSize "720x1280" = .str "9:16" ∧
     ratioOfSize "1080x1920" = .str "9:16") ∧
    (ratioOfSize "1792x1024" = .str "16:9" ∧ ratioOfSize "1280x720" = .str "16:9" ∧
     ratioOfSize "1920x1080" = .str "16:9") ∧
    ∀ size, ownLookup size sizeToRatio = none →
      ratioOfSize size =
        if protoKeys.contains size then JsVal.protoVal else .str "1:1" := by
  refine ⟨⟨rfl, rfl, rfl⟩, ⟨rfl, rfl, rfl⟩, ⟨rfl, rfl, rfl⟩, ?_⟩
  intro size h
  unfold ratioOfSize
  rw [tableLookup_not_own size sizeToRatio h]
  cases hp : protoKeys.contains size with
  | true => rfl
  | false => rfl

/-- C9, witness: the default branch applied to an unlisted size off the
prototype chain. -/
theorem c9_sizeToRatio_mapping_witness : ratioOfSize "640x480" = .str "1:1" := by
  rw [c9_sizeToRatio_mapping.2.2.2 "640x480" rfl]
  rfl

/-- C10: refreshSession is atomic on failure: a run returning false leaves
sessionToken and chatToken unchanged and never writes the cache; a run
returning true writes the cache exactly once and only replaces the session
token. -/
theorem c10_refresh_atomic (st : SessionState) (w : World) :
    ((refreshSession st w).ok = false →
      (refreshSession st w).state = st ∧ (refreshSession st w).cacheWrites = 0) ∧
    ((refreshSession st w).ok = true →
      (refreshSession st w).cacheWrites = 1 ∧
      ∃ t, (refreshSession st w).state = { st with sessionToken := some t }) := by
  rcases refresh_shape st w with h | ⟨ct, _, h⟩ | ⟨ct, code, _, h⟩ |
    ⟨ct, code, t, _, h⟩ <;> rw [h] <;> simp

/-- C10, witness: the failure half applied to the empty session state. -/
theorem c10_refresh_atomic_witness :
    (refreshSession ⟨none, none⟩ worldNoNet).state = ⟨none, none⟩ ∧
    (refreshSession ⟨none, none⟩ worldNoNet).cacheWrites = 0 :=
  (c10_refresh_atomic ⟨none, none⟩ worldNoNet).1 rfl

/-- C3, counterexample: with a redirect URL that parses but carries no code
parameter, refreshSession does not return false without a second request:
it issues the step-2 token-exchange request with a null code, and here,
since the step-2 response carries a token, it even returns true. -/
theorem c3_missing_code_cex :
    getQueryParam "https://image.z.ai/?state=abc" "code" = none ∧
    (refreshSession c3State c3World).requests =
      [.oauthAuthorize "ct", .tokenExchange none] ∧
    (refreshSession c3State c3World).ok = true :=
  ⟨rfl, rfl, rfl⟩

/-- C3, amended: a step-1 response without a truthy redirect URL makes
refreshSession return false after the single authorize request; a redirect
URL that parses but lacks a code parameter does not stop the run: the
step-2 request is issued with a null code and the outcome is decided by
whether the step-2 response carries a token. -/
theorem c3_refresh_redirect_amended (st : SessionState) (w : World) (ct : String)
    (hct : st.chatToken = some ct) (hne : ct.isEmpty = false) :
    (∀ r1, w.step1 = .ok r1 → (r1.redirectUrl = none ∨ r1.redirectUrl = some "") →
      refreshSession st w = ⟨false, st, [.oauthAuthorize ct], 0⟩) ∧
    (∀ r1 u, w.step1 = .ok r1 → r1.redirectUrl = some u → u.isEmpty = false →
      validHttpUrl u = true → getQueryParam u "code" = none →
      (refreshSession st w).requests =
        [.oauthAuthorize ct, .tokenExchange none] ∧
      (refreshSession st w).ok =
        (match w.step2 none with
         | .ok r2 => r2.token.isSome
         | .error _ => false)) := by
  constructor
  · rintro r1 h1 (h2 | h2) <;>
      simp [refreshSession, hct, hne, h1, h2, show "".isEmpty = true from rfl]
  · rintro r1 u h1 h2 h3 h4 h5
    cases h6 : w.step2 none with
    | error e =>
      constructor <;> simp [refreshSession, hct, hne, h1, h2, h3, h4, h5, h6]
    | ok r2 =>
      cases h7 : r2.token with
      | none =>
        constructor <;> simp [refreshSession, hct, hne, h1, h2, h3, h4, h5, h6, h7]
      | some t =>
        constructor <;> simp [refreshSession, hct, hne, h1, h2, h3, h4, h5, h6, h7]

/-- C3, witness: the missing-redirect half applied to a concrete state and
world. -/
theorem c3_refresh_redirect_amended_witness :
    refreshSession c3State c3WitWorld =
      ⟨false, c3State, [.oauthAuthorize "ct"], 0⟩ :=
  (c3_refresh_redirect_amended c3State c3WitWorld "ct" rfl rfl).1
    ⟨none⟩ rfl (Or.inl rfl)

/-- C4, counterexample: an object whose image_url field is a truthy
non-string is returned as that value, so findImageUrl does not always
return a string or null as the claim states. -/
theorem c4_nonstring_image_url_cex :
    findImageUrl (.obj (.cons "image_url" (.num 5) .nil)) = some (.num 5) ∧
    Json.isStr (.num 5) = false :=
  ⟨rfl, rfl⟩

/-- C4, amended: findImageUrl returns the found JavaScript value (null as
none), which is a string in every case except a truthy non-string
image_url field, returned as-is.  At each node: a string is returned
exactly when it matches the image-extension pattern or contains the
fragment /z_image/; an object yields its url field under the urlField test,
else its image_url value when that value is truthy (not merely present),
else the first hit of a depth-first search of its property values in
insertion order; the three concrete examples of the claim hold. -/
theorem c4_findImageUrl_amended :
    (∀ s : String, findImageUrl (.str s) =
      if matchesImageUrl s || containsSub s.toList ("/z_image/".toList)
      then some (.str s) else none) ∧
    (∀ fields u, urlField fields = some u →
      findImageUrl (.obj fields) = some (.str u)) ∧
    (∀ fields v, urlField fields = none → fields.get "image_url" = some v →
      findImageUrl (.obj fields) =
        if v.truthy then some v else findInFields fields) ∧
    (∀ fields, urlField fields = none → fields.get "image_url" = none →
      findImageUrl (.obj fields) = findInFields fields) ∧
    (∀ k v t, findInFields (.cons k v t) =
      match findImageUrl v with
      | some r => some r
      | none => findInFields t) ∧
    findImageUrl (.obj (.cons "a" (.obj (.cons "b"
      (.obj (.cons "url" (.str "http://x/y.png") .nil)) .nil)) .nil))
      = some (.str "http://x/y.png") ∧
    findImageUrl (.obj (.cons "foo" (.str "not a url") .nil)) = none ∧
    findImageUrl (.str "https://host/path/img.jpg")
      = some (.str "https://host/path/img.jpg") := by
  refine ⟨fun s => rfl, ?_, ?_, ?_, fun k v t => rfl, rfl, rfl, rfl⟩
  · intro fields u h
    simp [findImageUrl, h]
  · intro fields v h hv
    simp [findImageUrl, h, hv]
  · intro fields h h2
    simp [findImageUrl, h, h2]

/-- C4, witness: the url-field rule applied to a concrete object. -/
theorem c4_findImageUrl_amended_witness :
    findImageUrl (.obj (.cons "url" (.str "/img.png") .nil))
      = some (.str "/img.png") :=
  c4_findImageUrl_amended.2.1 _ "/img.png" rfl

/-- Characterisation of a generate run whose (defaulted) ratio or
resolution is invalid: the run stops with an error before the generation
request, and its state, requests and cache writes are those of the
ensureSession run it begins with. -/
theorem generate_invalid (st : SessionState) (w : World) (now : Int)
    (prompt : String) (opts : GenOptions)
    (h : ratios.contains (jsOr opts.ratio "1:1") = false ∨
         resolutions.contains (jsOr opts.resolution "1K") = false) :
    generate st w now prompt opts =
      ⟨(if (ensureSession st w now).ok = false then .error .sessionExpired
        else if ratios.contains (jsOr opts.ratio "1:1") = false then
          .error (.invalidRatio (jsOr opts.ratio "1:1"))
        else .error (.invalidResolution (jsOr opts.resolution "1K"))),
       (ensureSession st w now).state,
       (ensureSession st w now).requests,
       (ensureSession st w now).cacheWrites⟩ := by
  unfold generate
  dsimp only
  cases hok : (ensureSession st w now).ok with
  | false => simp [hok]
  | true =>
    cases hr1 : ratios.contains (jsOr opts.ratio "1:1") with
    | false => simp [hok, hr1]
    | true =>
      rcases h with h | h
      · rw [hr1] at h; cases h
      · have h2 : ¬(jsOr opts.resolution "1K" ∈ resolutions) := by
          simp at h; exact h
        have hr2 : jsOr opts.ratio "1:1" ∈ ratios := by
          simp at hr1; exact hr1
        simp [hok, hr2, h2]

/-- C1, counterexample: with no session token, a chat token present, and a
failing network, generate called with the invalid ratio 2:1 issues one
network request (the authorize POST of the refresh that ensureSession runs
before any validation) and fails with Session expired rather than with the
invalid-parameter error. -/
theorem c1_network_before_validation_cex :
    (generate c1State worldNoNet 0 "p" ⟨some "2:1", none, none⟩).requests
      = [.oauthAuthorize "ct"] ∧
    (generate c1State worldNoNet 0 "p" ⟨some "2:1", none, none⟩).result
      = .error .sessionExpired :=
  ⟨rfl, rfl⟩

/-- C1, amended: an invalid ratio or resolution always prevents the
image-generation request itself, and the run ends with the
invalid-parameter error or, since ensureSession runs first, possibly with
Session expired; the request count is zero (and the error is the
invalid-parameter one) exactly in the runs whose session is already valid
and not in the early-refresh window, because ensureSession may otherwise
issue refresh network requests before the validation. -/
theorem c1_invalid_options_amended (st : SessionState) (w : World) (now : Int)
    (prompt : String) (opts : GenOptions)
    (h : ratios.contains (jsOr opts.ratio "1:1") = false ∨
         resolutions.contains (jsOr opts.resolution "1K") = false) :
    ((generate st w now prompt opts).requests.all fun r => !isGenerateReq r) = true ∧
    ((generate st w now prompt opts).result = .error .sessionExpired ∨
     (generate st w now prompt opts).result =
       .error (.invalidRatio (jsOr opts.ratio "1:1")) ∨
     (generate st w now prompt opts).result =
       .error (.invalidResolution (jsOr opts.resolution "1K"))) ∧
    (isSessionValid st now = true → sessionNeedsRefresh st now = false →
      (generate st w now prompt opts).requests = [] ∧
      ((generate st w now prompt opts).result =
         .error (.invalidRatio (jsOr opts.ratio "1:1")) ∨
       (generate st w now prompt opts).result =
         .error (.invalidResolution (jsOr opts.resolution "1K")))) := by
  have hg := generate_invalid st w now prompt opts h
  rw [hg]
  refine ⟨ensure_no_gen st w now, ?_, ?_⟩
  · dsimp only
    split
    · exact Or.inl rfl
    · split
      · exact Or.inr (Or.inl rfl)
      · exact Or.inr (Or.inr rfl)
  · intro hv hr
    rw [ensure_fresh st w now hv hr]
    refine ⟨rfl, ?_⟩
    dsimp only
    rw [if_neg (by simp)]
    split
    · exact Or.inl rfl
    · exact Or.inr rfl

/-- C1, witness: the amended statement applied to a valid fresh session and
an invalid ratio: no request is issued and the run ends with the
invalid-parameter error. -/
theorem c1_invalid_options_amended_witness :
    (generate ⟨some freshTok, none⟩ worldNoNet 0 "p"
      ⟨some "2:1", none, none⟩).requests = [] ∧
    ((generate ⟨some freshTok, none⟩ worldNoNet 0 "p"
        ⟨some "2:1", none, none⟩).result = .error (.invalidRatio "2:1") ∨
     (generate ⟨some freshTok, none⟩ worldNoNet 0 "p"
        ⟨some "2:1", none, none⟩).result = .error (.invalidResolution "1K")) :=
  (c1_invalid_options_amended ⟨some freshTok, none⟩ worldNoNet 0 "p"
    ⟨some "2:1", none, none⟩ (Or.inl rfl)).2.2 rfl rfl

/-- C6: saving an eleventh artifact into a directory of ten, whose oldest
file is unique and older than every other and whose creation times make the
new file the newest, deletes exactly the oldest file: the result is the ten
remaining files, in order, with every file other than the oldest kept
unchanged and the new file appended. -/
theorem c6_retention_oldest_deleted (fs : List FileEntry) (f o : FileEntry)
    (hlen : fs.length = 10) (hmem : o ∈ fs) (hcount : fs.count o = 1)
    (hmin : ∀ g ∈ fs, g ≠ o → o.ctime < g.ctime)
    (hnew : ∀ g ∈ fs, g.ctime < f.ctime) :
    saveArtifact fs f = (fs.filter fun g => decide (o.ctime < g.ctime)) ++ [f] ∧
    o ∉ saveArtifact fs f ∧
    (∀ g ∈ fs, g ≠ o → g ∈ saveArtifact fs f) ∧
    f ∈ saveArtifact fs f ∧
    (saveArtifact fs f).length = 10 := by
  have hext : ∀ x ∈ fs, newerCount (fs ++ [f]) x = newerCount fs x + 1 := by
    intro x hx
    have h1 : decide (x.ctime < f.ctime) = true := by simp [hnew x hx]
    simp [newerCount, List.filter_append, List.filter_cons, h1]
  have hextf : newerCount (fs ++ [f]) f = 0 := by
    have hnil : List.filter (fun g => decide (f.ctime < g.ctime)) (fs ++ [f]) = [] := by
      rw [List.filter_eq_nil_iff]
      intro a ha
      rcases List.mem_append.mp ha with ha | ha
      · have h2 := hnew a ha
        simp
        omega
      · have haf : a = f := List.mem_singleton.mp ha
        subst haf
        simp
    simp [newerCount, hnil]
  have hsplit := filter_split fs (fun g => decide (o.ctime < g.ctime))
    (fun g => !(decide (o.ctime < g.ctime))) (fun a => rfl)
  have hnotfilter :
      (fs.filter fun g => !(decide (o.ctime < g.ctime)))
        = fs.filter (fun g => g == o) := by
    apply List.filter_congr
    intro x hx
    by_cases hxo : x = o
    · subst hxo
      simp
    · have h3 := hmin x hx hxo
      have h4 : decide (o.ctime < x.ctime) = true := by simp [h3]
      have h5 : (x == o) = false := by simp [hxo]
      rw [h4, h5]
      rfl
  have hcnt : (fs.filter fun g => g == o).length = 1 := by
    rw [← List.countP_eq_length_filter]
    exact hcount
  have h9 : newerCount fs o = 9 := by
    rw [hnotfilter, hcnt, hlen] at hsplit
    unfold newerCount
    omega
  have h8 : ∀ x ∈ fs, x ≠ o → newerCount fs x ≤ 8 := by
    intro x hx hxo
    have hs2 := filter_split fs (fun g => decide (x.ctime < g.ctime))
      (fun g => !(decide (x.ctime < g.ctime))) (fun a => rfl)
    have hxmem : x ∈ fs.filter fun g => !(decide (x.ctime < g.ctime)) := by
      rw [List.mem_filter]
      exact ⟨hx, by simp⟩
    have homem : o ∈ fs.filter fun g => !(decide (x.ctime < g.ctime)) := by
      rw [List.mem_filter]
      refine ⟨hmem, ?_⟩
      have h3 := hmin x hx hxo
      simp
      omega
    have h2le := two_mem_le_length _ x o hxmem homem hxo
    rw [hlen] at hs2
    unfold newerCount
    omega
  have hmain : saveArtifact fs f =
      (fs.filter fun g => decide (o.ctime < g.ctime)) ++ [f] := by
    unfold saveArtifact pruneRetention
    rw [List.filter_append]
    congr 1
    · apply List.filter_congr
      intro x hx
      rw [hext x hx]
      by_cases hxo : x = o
      · subst hxo
        rw [h9]
        simp [Nat.lt_irrefl]
      · have hle := h8 x hx hxo
        have hlt := hmin x hx hxo
        have h11 : newerCount fs x + 1 < 10 := by omega
        simp [hlt, h11]
    · simp [List.filter_cons, hextf]
  refine ⟨hmain, ?_, ?_, ?_, ?_⟩
  · rw [hmain]
    intro hmemo
    rcases List.mem_append.mp hmemo with h2 | h2
    · rcases List.mem_filter.mp h2 with ⟨-, hdec⟩
      simp at hdec
    · have hof : o = f := List.mem_singleton.mp h2
      have h3 := hnew o hmem
      rw [hof] at h3
      exact absurd h3 (Nat.lt_irrefl _)
  · intro g hg hgo
    rw [hmain]
    refine List.mem_append.mpr (Or.inl ?_)
    rw [List.mem_filter]
    exact ⟨hg, by simp [hmin g hg hgo]⟩
  · rw [hmain]
    exact List.mem_append.mpr (Or.inr (List.mem_singleton.mpr rfl))
  · rw [hmain, List.length_append]
    have h10 : (fs.filter fun g => decide (o.ctime < g.ctime)).length = 9 := by
      have h9c := h9
      unfold newerCount at h9c
      exact h9c
    rw [h10]
    rfl

/-- C6, witness: the retention theorem applied to a concrete directory of
ten files with creation times 1 to 10 and a new file of creation time 11. -/
theorem c6_retention_oldest_deleted_witness :
    (saveArtifact tenFiles ⟨"k", 11⟩).length = 10 ∧
    (⟨"a", 1⟩ : FileEntry) ∉ saveArtifact tenFiles ⟨"k", 11⟩ := by
  have h := c6_retention_oldest_deleted tenFiles ⟨"k", 11⟩ ⟨"a", 1⟩
    (by decide) (by decide) (by decide) (by decide) (by decide)
  exact ⟨h.2.2.2.2, h.2.1⟩

end ZImage
